import Mathlib

/-!
Verification of the friendly-number library core.

Shallow embedding of the core numeric components of the library
(significant-digit engine, scaling engine, scale generator) over exact
rational arithmetic.  JavaScript numbers are idealised as follows:

* A JS `number` is modelled as `JSNum`: either a finite rational
  (`JSNum.num q`), `NaN`, `Infinity` or `-Infinity`.  Binary doubles are
  decimal rationals, so mantissa-digit counting is exact on this model;
  negative zero is identified with zero.
* `Math.floor(Math.log10 x)` for `x > 0` is the exact decimal magnitude,
  computed here by the fuel-driven functions `natLog10Aux` / `natClog10Aux`
  and `floorLog10`.  For `x ≤ 0` (where JS produces `NaN` / `-Infinity`
  and every comparison on the resulting `NaN` is false) `floorLog10`
  returns `0`, which yields the same control-flow outcome in every
  branch of the embedded code.
* `Math.round` rounds half toward `+∞`: `mathRound q = ⌊q + 1/2⌋`.
* `value.toExponential()` of a finite decimal rational has as mantissa
  digits the digits of the minimal integer mantissa (trailing zeros
  stripped); `decMantissa` computes that integer.
* `Math.log10` / `Math.pow` applied at non-integral points occur only in
  the exponential branch of `generateScale`; those two host functions are
  taken as parameters (`tenPow`, `logTen`) of the embedding.
* The friendly-progression `while` loop of `generateScale` is embedded
  with explicit fuel; `generateScale` returns `none` when the fuel is
  exhausted, so "the loop terminates" is "some fuel yields a result".
* Arithmetic on finite values (`jsMul`, `jsDiv`, and the rational
  operations inside the rounding functions) is exact: the per-operation
  IEEE 754 rounding of binary64 is dropped.  Conclusions that would be
  sensitive to that rounding are therefore only asserted on inputs
  where the binary64 operations are themselves exact (representable
  concrete examples, scaling by powers of two).
-/

/-- Fuel-driven division of a natural number by `10` while divisible;
models trimming the trailing zeros of a decimal mantissa. -/
def stripZerosAux : ℕ → ℕ → ℕ
  | 0, n => n
  | fuel+1, n => if 10 ∣ n ∧ n ≠ 0 then stripZerosAux fuel (n / 10) else n

/-- Strip all trailing decimal zeros of `n`. -/
def stripZeros (n : ℕ) : ℕ := stripZerosAux n n

/-- Fuel-driven multiplicity counter: the number of times `p` divides `n`. -/
def factorCountAux (p : ℕ) : ℕ → ℕ → ℕ
  | 0, _ => 0
  | fuel+1, n => if 2 ≤ p ∧ p ∣ n ∧ n ≠ 0 then factorCountAux p fuel (n / p) + 1 else 0

/-- Multiplicity of `p` in `n` (0 when `p < 2` or `n = 0`). -/
def factorCount (p n : ℕ) : ℕ := factorCountAux p n n

/-- Fuel-driven `⌊log₁₀ n⌋` for natural `n ≥ 1`. -/
def natLog10Aux : ℕ → ℕ → ℕ
  | 0, _ => 0
  | fuel+1, n => if 10 ≤ n then natLog10Aux fuel (n / 10) + 1 else 0

/-- Fuel-driven `⌈log₁₀ n⌉` for natural `n ≥ 1`. -/
def natClog10Aux : ℕ → ℕ → ℕ
  | 0, _ => 0
  | fuel+1, n => if n ≤ 1 then 0 else natClog10Aux fuel ((n + 9) / 10) + 1

/-- Embedded `Math.floor(Math.log10 q)`: for a positive rational, exactly; `0` for
`q ≤ 0` (see the module comment). -/
def floorLog10 (q : ℚ) : ℤ :=
  if 1 ≤ q then (natLog10Aux ⌊q⌋.toNat ⌊q⌋.toNat : ℤ)
  else if 0 < q then -(natClog10Aux ⌈q⁻¹⌉.toNat ⌈q⁻¹⌉.toNat : ℤ)
  else 0

theorem stripZerosAux_ne_zero : ∀ (fuel n : ℕ), n ≠ 0 → stripZerosAux fuel n ≠ 0 := by
  intro fuel
  induction fuel with
  | zero => intro n hn; simpa [stripZerosAux] using hn
  | succ fuel ih =>
    intro n hn
    by_cases h : 10 ∣ n ∧ n ≠ 0
    · rw [stripZerosAux, if_pos h]
      refine ih _ ?_
      rcases h.1 with ⟨k, hk⟩
      subst hk
      simp only [ne_eq, Nat.mul_div_cancel_left _ (by norm_num : 0 < 10)]
      intro hk0; exact hn (by simp [hk0])
    · rw [stripZerosAux, if_neg h]; exact hn

theorem stripZeros_ne_zero (n : ℕ) (hn : n ≠ 0) : stripZeros n ≠ 0 :=
  stripZerosAux_ne_zero n n hn

theorem natLog10Aux_spec : ∀ (fuel n : ℕ), 0 < n → n ≤ fuel →
    10 ^ natLog10Aux fuel n ≤ n ∧ n < 10 ^ (natLog10Aux fuel n + 1) := by
  intro fuel
  induction fuel with
  | zero => intro n h1 h2; omega
  | succ fuel ih =>
    intro n h1 h2
    by_cases h : 10 ≤ n
    · rw [natLog10Aux, if_pos h]
      have hd1 : 0 < n / 10 := Nat.div_pos h (by norm_num)
      have hd2 : n / 10 ≤ fuel := by omega
      obtain ⟨ha, hb⟩ := ih (n / 10) hd1 hd2
      constructor
      · calc 10 ^ (natLog10Aux fuel (n / 10) + 1)
            = 10 ^ natLog10Aux fuel (n / 10) * 10 := by rw [pow_succ]
          _ ≤ (n / 10) * 10 := Nat.mul_le_mul_right _ ha
          _ ≤ n := Nat.div_mul_le_self n 10
      · have := (Nat.div_lt_iff_lt_mul (by norm_num : 0 < 10)).mp hb
        calc n < 10 ^ (natLog10Aux fuel (n / 10) + 1) * 10 := this
          _ = 10 ^ (natLog10Aux fuel (n / 10) + 1 + 1) := (pow_succ 10 _).symm
    · rw [natLog10Aux, if_neg h]
      constructor
      · simpa using h1
      · simpa using (by omega : n < 10)

theorem natClog10Aux_le_one (fuel n : ℕ) (h : n ≤ 1) : natClog10Aux fuel n = 0 := by
  cases fuel with
  | zero => rfl
  | succ fuel => rw [natClog10Aux, if_pos h]

theorem natClog10Aux_spec : ∀ (fuel n : ℕ), 2 ≤ n → n ≤ fuel →
    ∃ j, natClog10Aux fuel n = j + 1 ∧ n ≤ 10 ^ (j + 1) ∧ 10 ^ j < n := by
  intro fuel
  induction fuel with
  | zero => intro n h1 h2; omega
  | succ fuel ih =>
    intro n h1 h2
    have hn1 : ¬ n ≤ 1 := by omega
    rw [natClog10Aux, if_neg hn1]
    set m := (n + 9) / 10 with hm
    by_cases hm1 : m ≤ 1
    · refine ⟨0, by rw [natClog10Aux_le_one fuel m hm1], ?_, ?_⟩
      · simp only [zero_add, pow_one]; omega
      · simp only [pow_zero]; omega
    · have hm2 : 2 ≤ m := by omega
      have hmfuel : m ≤ fuel := by omega
      obtain ⟨j, hj, hub, hlb⟩ := ih m hm2 hmfuel
      refine ⟨j + 1, by rw [hj], ?_, ?_⟩
      · have h10m : n ≤ 10 * m := by omega
        calc n ≤ 10 * m := h10m
          _ ≤ 10 * 10 ^ (j + 1) := Nat.mul_le_mul_left _ hub
          _ = 10 ^ (j + 1 + 1) := by rw [pow_succ]; ring
      · have h10m : 10 * m ≤ n + 9 := by omega
        have : 10 * 10 ^ j < 10 * m := by omega
        have hps : 10 ^ (j + 1) = 10 * 10 ^ j := by rw [pow_succ]; ring
        omega

theorem floorLog10_spec (q : ℚ) (hq : 0 < q) :
    (10 : ℚ) ^ floorLog10 q ≤ q ∧ q < (10 : ℚ) ^ (floorLog10 q + 1) := by
  by_cases h1 : 1 ≤ q
  · rw [floorLog10, if_pos h1]
    have hfl : (1 : ℤ) ≤ ⌊q⌋ := by
      rw [Int.le_floor]; exact_mod_cast h1
    set n := ⌊q⌋.toNat with hn
    have hcast : (n : ℤ) = ⌊q⌋ := Int.toNat_of_nonneg (by omega)
    have hn0 : 0 < n := by omega
    obtain ⟨ha, hb⟩ := natLog10Aux_spec n n hn0 le_rfl
    set L := natLog10Aux n n with hL
    have hq1 : ((n : ℚ)) ≤ q := by
      have := Int.floor_le q
      rw [← hcast] at this
      exact_mod_cast this
    have hq2 : q < (n : ℚ) + 1 := by
      have := Int.lt_floor_add_one q
      rw [← hcast] at this
      exact_mod_cast this
    constructor
    · rw [zpow_natCast]
      calc (10 : ℚ) ^ L = ((10 ^ L : ℕ) : ℚ) := by push_cast; ring
        _ ≤ (n : ℚ) := by exact_mod_cast ha
        _ ≤ q := hq1
    · have : ((L : ℤ)) + 1 = ((L + 1 : ℕ) : ℤ) := by push_cast; ring
      rw [this, zpow_natCast]
      calc q < (n : ℚ) + 1 := hq2
        _ ≤ ((10 ^ (L + 1) : ℕ) : ℚ) := by exact_mod_cast hb
        _ = (10 : ℚ) ^ (L + 1) := by push_cast; ring
  · rw [floorLog10, if_neg h1, if_pos hq]
    have hlt1 : q < 1 := by linarith [not_le.mp h1]
    have hinv : 1 < q⁻¹ := (one_lt_inv₀ hq).mpr hlt1
    have hceil : (1 : ℤ) < ⌈q⁻¹⌉ := Int.lt_ceil.mpr (by exact_mod_cast hinv)
    set n := ⌈q⁻¹⌉.toNat with hn
    have hcast : (n : ℤ) = ⌈q⁻¹⌉ := Int.toNat_of_nonneg (by omega)
    have hn2 : 2 ≤ n := by omega
    obtain ⟨j, hj, hub, hlb⟩ := natClog10Aux_spec n n hn2 le_rfl
    rw [hj]
    have hqinv : 0 < q⁻¹ := inv_pos.mpr hq
    constructor
    · have hle : q⁻¹ ≤ ((10 ^ (j + 1) : ℕ) : ℚ) := by
        calc q⁻¹ ≤ (⌈q⁻¹⌉ : ℚ) := Int.le_ceil _
          _ = ((n : ℤ) : ℚ) := by rw [hcast]
          _ ≤ ((10 ^ (j + 1) : ℕ) : ℚ) := by exact_mod_cast hub
      have hp : (0 : ℚ) < ((10 ^ (j + 1) : ℕ) : ℚ) := by positivity
      have := inv_le_of_inv_le₀ hq hle
      calc (10 : ℚ) ^ (-((j : ℤ) + 1)) = (((10 : ℚ) ^ ((j : ℤ) + 1)))⁻¹ := by
            rw [zpow_neg]
        _ = (((10 ^ (j + 1) : ℕ) : ℚ))⁻¹ := by
            congr 1
            rw [show ((j : ℤ) + 1) = ((j + 1 : ℕ) : ℤ) by push_cast; ring, zpow_natCast]
            push_cast; ring
        _ ≤ q := this
    · have hlt : ((10 ^ j : ℕ) : ℚ) < q⁻¹ := by
        have : ((10 ^ j : ℕ) : ℤ) < ⌈q⁻¹⌉ := by omega
        exact_mod_cast Int.lt_ceil.mp this
      have hp : (0 : ℚ) < ((10 ^ j : ℕ) : ℚ) := by positivity
      have hq' : q < (((10 ^ j : ℕ) : ℚ))⁻¹ := by
        rw [show q = (q⁻¹)⁻¹ by rw [inv_inv]]
        exact (inv_lt_inv₀ hqinv hp).mpr hlt
      calc q < (((10 ^ j : ℕ) : ℚ))⁻¹ := hq'
        _ = (10 : ℚ) ^ (-((j : ℤ) + 1) + 1) := by
            rw [show (-((j : ℤ) + 1) + 1) = -(j : ℤ) by ring, zpow_neg]
            congr 1
            rw [zpow_natCast]
            push_cast; ring

theorem floorLog10_eval (q : ℚ) (m : ℤ) (h0 : 0 < q)
    (h1 : (10 : ℚ) ^ m ≤ q) (h2 : q < (10 : ℚ) ^ (m + 1)) : floorLog10 q = m := by
  obtain ⟨ha, hb⟩ := floorLog10_spec q h0
  have h10 : (1 : ℚ) < 10 := by norm_num
  have hc1 : (10 : ℚ) ^ m < (10 : ℚ) ^ (floorLog10 q + 1) := lt_of_le_of_lt h1 hb
  have hc2 : (10 : ℚ) ^ floorLog10 q < (10 : ℚ) ^ (m + 1) := lt_of_le_of_lt ha h2
  have := (zpow_lt_zpow_iff_right₀ h10).mp hc1
  have := (zpow_lt_zpow_iff_right₀ h10).mp hc2
  omega

/-- JavaScript `Math.round`: round half toward `+∞`. -/
def mathRound (q : ℚ) : ℤ := ⌊q + 1/2⌋

/-- The minimal integer mantissa of a decimal rational: for
`|q| = M * 10 ^ e` with `M` an integer not divisible by 10, this is `M`.
These are exactly the mantissa digits of `q.toExponential()`.  For a
rational whose denominator is not of the form `2^a * 5^b` (impossible for
a binary double) the numerator is used as a harmless total default. -/
def decMantissa (q : ℚ) : ℕ :=
  let n := q.num.natAbs
  let d := q.den
  let D := max (factorCount 2 d) (factorCount 5 d)
  if d ∣ 10 ^ D then stripZeros (n * 10 ^ D / d) else stripZeros n

/-- Source `countSignificantDigits` on a finite value (source file
`significant-digits.ts`): 0 for zero, else the number of mantissa digits
of the normalized exponential form, counted from the first non-zero
digit. -/
def countSigRat (q : ℚ) : ℕ :=
  if q = 0 then 0 else (Nat.digits 10 (decMantissa q)).length

/-- Source `roundToSignificantDigits` on a finite value: guard for zero or
non-positive digit count, else `round(value / scale) * scale` with
`scale = 10 ^ (magnitude - significantDigits + 1)`. -/
def roundToSigRat (q : ℚ) (significantDigits : ℤ) : ℚ :=
  if q = 0 ∨ significantDigits ≤ 0 then q
  else
    let magnitude := floorLog10 |q|
    let scale := (10 : ℚ) ^ (magnitude - significantDigits + 1)
    (mathRound (q / scale) : ℚ) * scale

/-- Source `roundToHalfSignificantDigits` on a finite value: same scale, but the
normalized value is rounded to the nearest multiple of `1/2`. -/
def roundToHalfSigRat (q : ℚ) (significantDigits : ℤ) : ℚ :=
  if q = 0 ∨ significantDigits ≤ 0 then q
  else
    let magnitude := floorLog10 |q|
    let scale := (10 : ℚ) ^ (magnitude - significantDigits + 1)
    let normalized := q / scale
    ((mathRound (normalized * 2) : ℚ) / 2) * scale

/-- A JavaScript number: a finite (decimal) rational, `NaN`, or `±∞`. -/
inductive JSNum where
  | num (q : ℚ)
  | nan
  | inf
  | neginf
deriving DecidableEq

/-- JS `isFinite`. -/
def JSNum.isFinite : JSNum → Bool
  | JSNum.num _ => true
  | _ => false

/-- JS unary negation (negative zero identified with zero). -/
def jneg : JSNum → JSNum
  | JSNum.num q => JSNum.num (-q)
  | JSNum.nan => JSNum.nan
  | JSNum.inf => JSNum.neginf
  | JSNum.neginf => JSNum.inf

/-- JS multiplication on the `JSNum` model (IEEE special-value rules;
`0 * ±∞ = NaN`).  Finite products are computed exactly: the IEEE 754
rounding of binary64 multiplication is dropped, so exact-product
conclusions are asserted only where the real operation is itself exact
(representable concrete examples, power-of-two factors) or where
rounding is irrelevant. -/
def jsMul : JSNum → JSNum → JSNum
  | JSNum.num a, JSNum.num b => JSNum.num (a * b)
  | JSNum.nan, _ => JSNum.nan
  | _, JSNum.nan => JSNum.nan
  | JSNum.num a, JSNum.inf =>
      if 0 < a then JSNum.inf else if a < 0 then JSNum.neginf else JSNum.nan
  | JSNum.inf, JSNum.num b =>
      if 0 < b then JSNum.inf else if b < 0 then JSNum.neginf else JSNum.nan
  | JSNum.num a, JSNum.neginf =>
      if 0 < a then JSNum.neginf else if a < 0 then JSNum.inf else JSNum.nan
  | JSNum.neginf, JSNum.num b =>
      if 0 < b then JSNum.neginf else if b < 0 then JSNum.inf else JSNum.nan
  | JSNum.inf, JSNum.inf => JSNum.inf
  | JSNum.inf, JSNum.neginf => JSNum.neginf
  | JSNum.neginf, JSNum.inf => JSNum.neginf
  | JSNum.neginf, JSNum.neginf => JSNum.inf

/-- JS division on the `JSNum` model (IEEE special-value rules, signed
zero identified with zero: `a / 0 = ±∞` by the sign of `a`,
`0 / 0 = NaN`).  Finite quotients are computed exactly, dropping IEEE
rounding — faithful where the real quotient is representable, such as
reciprocals of powers of two. -/
def jsDiv : JSNum → JSNum → JSNum
  | JSNum.nan, _ => JSNum.nan
  | _, JSNum.nan => JSNum.nan
  | JSNum.num a, JSNum.num b =>
      if b = 0 then
        if 0 < a then JSNum.inf else if a < 0 then JSNum.neginf else JSNum.nan
      else JSNum.num (a / b)
  | JSNum.num _, JSNum.inf => JSNum.num 0
  | JSNum.num _, JSNum.neginf => JSNum.num 0
  | JSNum.inf, JSNum.num b => if 0 ≤ b then JSNum.inf else JSNum.neginf
  | JSNum.neginf, JSNum.num b => if 0 ≤ b then JSNum.neginf else JSNum.inf
  | JSNum.inf, _ => JSNum.nan
  | JSNum.neginf, _ => JSNum.nan

/-- Source `countSignificantDigits` (source file `significant-digits.ts`):
returns 0 for non-finite or zero input. -/
def countSignificantDigits (value : JSNum) : ℕ :=
  match value with
  | JSNum.num q => countSigRat q
  | _ => 0

/-- Source `roundToSignificantDigits` (source file `significant-digits.ts`):
non-finite input is returned unchanged. -/
def roundToSignificantDigits (value : JSNum) (significantDigits : ℤ) : JSNum :=
  match value with
  | JSNum.num q => JSNum.num (roundToSigRat q significantDigits)
  | v => v

/-- Options of the scaling engine (source file `scaling.ts`), with the
destructuring defaults of the source. -/
structure ScaleOptions where
  preserveSignificantDigits : Bool := true
  minSignificantDigits : ℤ := 1
  maxSignificantDigits : ℤ := 15

/-- Source `scaleNumber` (source file `scaling.ts`). -/
def scaleNumber (value r : JSNum) (options : ScaleOptions) : JSNum :=
  let scaled := jsMul value r
  if options.preserveSignificantDigits = false then scaled
  else
    let originalSigDigits : ℤ := countSignificantDigits value
    let targetSigDigits :=
      max options.minSignificantDigits (min options.maxSignificantDigits originalSigDigits)
    roundToSignificantDigits scaled targetSigDigits

/-- Source `scaleNumberInverse` (source file `scaling.ts`). -/
def scaleNumberInverse (value r : JSNum) (options : ScaleOptions) : JSNum :=
  scaleNumber value (jsDiv (JSNum.num 1) r) options

/-- Progression modes of the scale generator (source file `scales.ts`). -/
inductive ScaleProgression where
  | linear
  | exponential
  | friendly
deriving DecidableEq

/-- Rounding modes of the scale generator (source file `scales.ts`). -/
inductive ScaleRounding where
  | none
  | significant
  | half
  | friendly
deriving DecidableEq

/-- Options of the scale generator, with the destructuring defaults of
the source. -/
structure GenerateScaleOptions where
  progression : ScaleProgression := ScaleProgression.friendly
  rounding : ScaleRounding := ScaleRounding.friendly
  significantDigits : ℤ := 2
  steps : ℕ := 10
  includeStart : Bool := true
  includeEnd : Bool := true

/-- Source `roundToFriendlyNumber` (source file `scales.ts`): snap to
the anchors 1, 2, 2.5, 5, 10 scaled by the power of ten of the
magnitude. -/
def roundToFriendlyNumber (value : ℚ) : ℚ :=
  if value = 0 then 0
  else
    let absValue := |value|
    let magnitude := floorLog10 absValue
    let normalized := absValue / 10 ^ magnitude
    let friendly : ℚ :=
      if normalized ≤ 1 then 1
      else if normalized ≤ 2 then 2
      else if normalized ≤ 5/2 then 5/2
      else if normalized ≤ 5 then 5
      else 10
    let result := friendly * 10 ^ magnitude
    if value < 0 then -result else result

/-- Source `applyRounding` (source file `scales.ts`). -/
def applyRounding (value : ℚ) (rounding : ScaleRounding) (significantDigits : ℤ) : ℚ :=
  match rounding with
  | ScaleRounding.none => value
  | ScaleRounding.significant => roundToSigRat value significantDigits
  | ScaleRounding.half => roundToHalfSigRat value significantDigits
  | ScaleRounding.friendly => roundToFriendlyNumber value

/-- The multiplier selection of the friendly loop of `generateScale`, kept
branch-for-branch as in the source (`normalized < 2.25` yields 2.5, every
other branch yields 2). -/
def nextMultiplier (current : ℚ) : ℚ :=
  let magnitude := floorLog10 current
  let normalized := current / 10 ^ magnitude
  if normalized < 3/2 then 2
  else if normalized < 9/4 then 5/2
  else if normalized < 4 then 2
  else if normalized < 15/2 then 2
  else 2

/-- One advance of the friendly loop of `generateScale`:
`current = roundToFriendlyNumber(current * nextMultiplier)`. -/
def friendlyStep (current : ℚ) : ℚ :=
  roundToFriendlyNumber (current * nextMultiplier current)

/-- The friendly-mode `while (current < end)` loop of `generateScale`,
with explicit fuel (`none` = fuel exhausted before termination).  Returns
the list of points pushed by the loop body. -/
def friendlyLoop (endv : ℚ) (includeEnd : Bool) : ℕ → ℚ → Option (List ℚ)
  | 0, current => if current < endv then none else some []
  | fuel+1, current =>
    if current < endv then
      let c := friendlyStep current
      if c < endv then
        Option.map (fun l => c :: l) (friendlyLoop endv includeEnd fuel c)
      else
        some (if includeEnd then [roundToFriendlyNumber endv] else [])
    else some []

/-- The final post-processing of the scale generator:
`[...new Set(scale)].sort((a, b) => a - b)`. -/
def sortDedup (l : List ℚ) : List ℚ :=
  List.insertionSort (· ≤ ·) l.dedup

/-- Source `generateScale` (source file `scales.ts`).  Here `tenPow` and
`logTen` are the host `Math.pow(10, ·)` / `Math.log10` used only by the
exponential branch; `fuel` bounds the friendly loop, `none` meaning the fuel
ran out before the loop terminated. -/
def generateScale (tenPow logTen : ℚ → ℚ) (fuel : ℕ) (start endv : ℚ)
    (options : GenerateScaleOptions) : Option (Except String (List ℚ)) :=
  if endv ≤ start then some (Except.error "Start must be less than end")
  else
    match options.progression with
    | ScaleProgression.linear =>
      let step := (endv - start) / (options.steps + 1)
      let mid := (List.range options.steps).map
        (fun (i : ℕ) => applyRounding (start + step * ((i : ℚ) + 1)) options.rounding options.significantDigits)
      let scale :=
        (if options.includeStart then [applyRounding start options.rounding options.significantDigits] else [])
        ++ mid
        ++ (if options.includeEnd then [applyRounding endv options.rounding options.significantDigits] else [])
      some (Except.ok (sortDedup scale))
    | ScaleProgression.exponential =>
      let logStart := logTen start
      let logEnd := logTen endv
      let logStep := (logEnd - logStart) / (options.steps + 1)
      let mid := (List.range options.steps).map
        (fun (i : ℕ) => applyRounding (tenPow (logStart + logStep * ((i : ℚ) + 1))) options.rounding options.significantDigits)
      let scale :=
        (if options.includeStart then [applyRounding start options.rounding options.significantDigits] else [])
        ++ mid
        ++ (if options.includeEnd then [applyRounding endv options.rounding options.significantDigits] else [])
      some (Except.ok (sortDedup scale))
    | ScaleProgression.friendly =>
      Option.map
        (fun pts => Except.ok (sortDedup
          ((if options.includeStart then [roundToFriendlyNumber start] else []) ++ pts)))
        (friendlyLoop endv options.includeEnd fuel start)

/-- Termination predicate: `generateScale` terminates on the given
inputs, that is, some fuel suffices. -/
def scaleTerminates (tenPow logTen : ℚ → ℚ) (start endv : ℚ)
    (options : GenerateScaleOptions) : Prop :=
  ∃ fuel r, generateScale tenPow logTen fuel start endv options = some r

/-- The multiplier cycle `[2, 2.5, 2]` of the friendly branch of
`generateScaleFromBaseline`. -/
def baselineMultiplier : ℕ → ℚ
  | 0 => 2
  | 1 => 5/2
  | _ => 2

/-- The friendly branch of `generateScaleFromBaseline`: repeatedly
multiply the running value by the cycle entry, round, append. -/
def baselineFriendlyAux (rounding : ScaleRounding) (significantDigits : ℤ) :
    ℕ → ℚ → ℕ → List ℚ
  | 0, _, _ => []
  | k+1, current, idx =>
    let c := current * baselineMultiplier (idx % 3)
    applyRounding c rounding significantDigits ::
      baselineFriendlyAux rounding significantDigits k c (idx + 1)

/-- Source `generateScaleFromBaseline` (source file `scales.ts`). -/
def generateScaleFromBaseline (baseline : ℚ) (count : ℕ)
    (options : GenerateScaleOptions) : List ℚ :=
  let first := applyRounding baseline options.rounding options.significantDigits
  match options.progression with
  | ScaleProgression.linear =>
    first :: (List.range (count - 1)).map
      (fun (j : ℕ) => applyRounding (baseline * ((j : ℚ) + 2)) options.rounding options.significantDigits)
  | ScaleProgression.exponential =>
    first :: (List.range (count - 1)).map
      (fun j => applyRounding (baseline * 10 ^ (j + 1)) options.rounding options.significantDigits)
  | ScaleProgression.friendly =>
    first :: baselineFriendlyAux options.rounding options.significantDigits (count - 1) baseline 0

theorem mathRound_eval (q : ℚ) (z : ℤ) (h1 : (z : ℚ) ≤ q + 1/2) (h2 : q + 1/2 < (z : ℚ) + 1) :
    mathRound q = z := by
  rw [mathRound, Int.floor_eq_iff]
  exact ⟨h1, by linarith⟩

theorem zpow10_pos (m : ℤ) : (0 : ℚ) < 10 ^ m := zpow_pos (by norm_num) m

theorem anchor_pos (k : ℚ) (m : ℤ) (hk : 0 < k) : 0 < k * (10 : ℚ) ^ m :=
  mul_pos hk (zpow10_pos m)

theorem anchor_lb (k : ℚ) (m : ℤ) (h1 : 1 ≤ k) : (10 : ℚ) ^ m ≤ k * 10 ^ m := by
  calc (10 : ℚ) ^ m = 1 * 10 ^ m := (one_mul _).symm
    _ ≤ k * 10 ^ m := mul_le_mul_of_nonneg_right h1 (zpow10_pos m).le

theorem anchor_ub (k : ℚ) (m : ℤ) (h2 : k < 10) : k * (10 : ℚ) ^ m < 10 ^ (m + 1) := by
  rw [zpow_add_one₀ (by norm_num : (10 : ℚ) ≠ 0)]
  calc k * (10 : ℚ) ^ m < 10 * 10 ^ m := mul_lt_mul_of_pos_right h2 (zpow10_pos m)
    _ = 10 ^ m * 10 := mul_comm _ _

theorem floorLog10_anchor (k : ℚ) (m : ℤ) (h1 : 1 ≤ k) (h2 : k < 10) :
    floorLog10 (k * 10 ^ m) = m :=
  floorLog10_eval _ m (anchor_pos k m (by linarith)) (anchor_lb k m h1) (anchor_ub k m h2)

theorem div_zpow_anchor (k : ℚ) (m : ℤ) : k * (10 : ℚ) ^ m / 10 ^ m = k := by
  field_simp

theorem roundToFriendlyNumber_anchor (k : ℚ) (m : ℤ) (h1 : 1 ≤ k) (h2 : k < 10) :
    roundToFriendlyNumber (k * 10 ^ m) =
      (if k ≤ 1 then 1 else if k ≤ 2 then 2 else if k ≤ 5/2 then (5 : ℚ)/2
       else if k ≤ 5 then 5 else 10) * 10 ^ m := by
  have hpos : 0 < k * (10 : ℚ) ^ m := anchor_pos k m (by linarith)
  simp only [roundToFriendlyNumber]
  rw [if_neg (ne_of_gt hpos), abs_of_pos hpos, floorLog10_anchor k m h1 h2, div_zpow_anchor,
    if_neg (not_lt.mpr hpos.le)]

theorem nextMultiplier_anchor (k : ℚ) (m : ℤ) (h1 : 1 ≤ k) (h2 : k < 10) :
    nextMultiplier (k * 10 ^ m) =
      if k < 3/2 then 2 else if k < 9/4 then (5 : ℚ)/2 else 2 := by
  simp only [nextMultiplier, floorLog10_anchor k m h1 h2, div_zpow_anchor]
  split_ifs <;> rfl

theorem roundToSigRat_eval (q : ℚ) (sd m z : ℤ) (hq : q ≠ 0) (hsd : 0 < sd)
    (hm : floorLog10 |q| = m) (hz : mathRound (q / 10 ^ (m - sd + 1)) = z) :
    roundToSigRat q sd = (z : ℚ) * 10 ^ (m - sd + 1) := by
  simp only [roundToSigRat]
  rw [if_neg (by push_neg; exact ⟨hq, by omega⟩), hm, hz]

theorem le_roundToFriendlyNumber (q : ℚ) (h : 0 < q) : q ≤ roundToFriendlyNumber q := by
  obtain ⟨h1, h2⟩ := floorLog10_spec q h
  set m := floorLog10 q with hm
  have hp : (0 : ℚ) < 10 ^ m := zpow10_pos m
  have hk1 : 1 ≤ q / 10 ^ m := (one_le_div hp).mpr h1
  have hk2 : q / 10 ^ m < 10 := by
    rw [div_lt_iff₀ hp]
    calc q < 10 ^ (m + 1) := h2
      _ = 10 * 10 ^ m := by rw [zpow_add_one₀ (by norm_num : (10 : ℚ) ≠ 0)]; ring
  have hqe : q = q / 10 ^ m * 10 ^ m := by field_simp
  conv_rhs => rw [hqe]
  rw [roundToFriendlyNumber_anchor (q / 10 ^ m) m hk1 hk2]
  conv_lhs => rw [hqe]
  refine mul_le_mul_of_nonneg_right ?_ hp.le
  split_ifs <;> linarith

theorem two_le_nextMultiplier (q : ℚ) : 2 ≤ nextMultiplier q := by
  simp only [nextMultiplier]
  split_ifs <;> norm_num

theorem friendlyStep_ge (q : ℚ) (h : 0 < q) : 2 * q ≤ friendlyStep q := by
  have hmul := two_le_nextMultiplier q
  have hqm : 0 < q * nextMultiplier q := mul_pos h (by linarith)
  have hstep : 2 * q ≤ q * nextMultiplier q := by nlinarith
  exact le_trans hstep (le_roundToFriendlyNumber _ hqm)

theorem friendlyStep_pos (q : ℚ) (h : 0 < q) : 0 < friendlyStep q :=
  lt_of_lt_of_le (by linarith) (friendlyStep_ge q h)

theorem friendlyLoop_isSome (endv : ℚ) (ie : Bool) :
    ∀ (n : ℕ) (c : ℚ), 0 < c → endv ≤ 2 ^ n * c →
      (friendlyLoop endv ie n c).isSome = true := by
  intro n
  induction n with
  | zero =>
    intro c h0 hle
    simp only [pow_zero, one_mul] at hle
    simp only [friendlyLoop, if_neg (not_lt.mpr hle), Option.isSome_some]
  | succ n ih =>
    intro c h0 hle
    simp only [friendlyLoop]
    by_cases hc : c < endv
    · rw [if_pos hc]
      by_cases hcs : friendlyStep c < endv
      · rw [if_pos hcs]
        have hrec := ih (friendlyStep c) (friendlyStep_pos c h0) ?_
        · obtain ⟨l, hl⟩ := Option.isSome_iff_exists.mp hrec
          rw [hl]
          rfl
        · have hg := friendlyStep_ge c h0
          calc endv ≤ 2 ^ (n + 1) * c := hle
            _ = 2 ^ n * (2 * c) := by rw [pow_succ]; ring
            _ ≤ 2 ^ n * friendlyStep c :=
                mul_le_mul_of_nonneg_left hg (by positivity)
      · rw [if_neg hcs]; rfl
    · rw [if_neg hc]; rfl

theorem decMantissa_ne_zero (q : ℚ) (hq : q ≠ 0) : decMantissa q ≠ 0 := by
  have hn : q.num.natAbs ≠ 0 := Int.natAbs_ne_zero.mpr (Rat.num_ne_zero.mpr hq)
  simp only [decMantissa]
  split_ifs with h
  · apply stripZeros_ne_zero
    have h10 : (0 : ℕ) < 10 ^ max (factorCount 2 q.den) (factorCount 5 q.den) :=
      pow_pos (by norm_num) _
    have hled : q.den ≤ 10 ^ max (factorCount 2 q.den) (factorCount 5 q.den) :=
      Nat.le_of_dvd h10 h
    have hmul : q.den ≤ q.num.natAbs * 10 ^ max (factorCount 2 q.den) (factorCount 5 q.den) :=
      le_trans hled (Nat.le_mul_of_pos_left _ (by omega))
    exact (Nat.div_pos hmul q.den_pos).ne'
  · exact stripZeros_ne_zero _ hn

theorem countSigRat_pos (q : ℚ) (hq : q ≠ 0) : 0 < countSigRat q := by
  simp only [countSigRat, if_neg hq]
  exact List.length_pos.mpr (Nat.digits_ne_nil_iff_ne_zero.mpr (decMantissa_ne_zero q hq))

theorem countSigRat_eval (q : ℚ) (a : ℤ) (d len : ℕ) (hq : q ≠ 0)
    (hnum : q.num = a) (hden : q.den = d)
    (h : (Nat.digits 10
        (if d ∣ 10 ^ max (factorCount 2 d) (factorCount 5 d)
         then stripZeros (a.natAbs * 10 ^ max (factorCount 2 d) (factorCount 5 d) / d)
         else stripZeros a.natAbs)).length = len) :
    countSigRat q = len := by
  simp only [countSigRat, decMantissa, hnum, hden, if_neg hq]
  exact h

theorem countSigRat_1000 : countSigRat 1000 = 1 := by
  refine countSigRat_eval 1000 1000 1 1 (by norm_num) rfl rfl ?_
  rw [show (if (1 : ℕ) ∣ 10 ^ max (factorCount 2 1) (factorCount 5 1)
      then stripZeros ((1000 : ℤ).natAbs * 10 ^ max (factorCount 2 1) (factorCount 5 1) / 1)
      else stripZeros (1000 : ℤ).natAbs) = 1 from by decide]
  norm_num [Nat.digits_def']

theorem countSigRat_1200 : countSigRat 1200 = 2 := by
  refine countSigRat_eval 1200 1200 1 2 (by norm_num) rfl rfl ?_
  rw [show (if (1 : ℕ) ∣ 10 ^ max (factorCount 2 1) (factorCount 5 1)
      then stripZeros ((1200 : ℤ).natAbs * 10 ^ max (factorCount 2 1) (factorCount 5 1) / 1)
      else stripZeros (1200 : ℤ).natAbs) = 12 from by decide]
  norm_num [Nat.digits_def']

theorem countSigRat_00012 : countSigRat (12/100000) = 2 := by
  have hnum : ((12 : ℚ)/100000).num = 3 := by
    rw [show ((12 : ℚ)/100000) = ((3 : ℤ) : ℚ) / ((25000 : ℤ) : ℚ) by norm_num]
    rw [Rat.num_div_eq_of_coprime (by norm_num) (by decide)]
  have hden : ((12 : ℚ)/100000).den = 25000 := by
    have : (((12 : ℚ)/100000).den : ℤ) = 25000 := by
      rw [show ((12 : ℚ)/100000) = ((3 : ℤ) : ℚ) / ((25000 : ℤ) : ℚ) by norm_num]
      exact Rat.den_div_eq_of_coprime (by norm_num) (by decide)
    exact_mod_cast this
  refine countSigRat_eval (12/100000) 3 25000 2 (by norm_num) hnum hden ?_
  rw [show (if (25000 : ℕ) ∣ 10 ^ max (factorCount 2 25000) (factorCount 5 25000)
      then stripZeros ((3 : ℤ).natAbs * 10 ^ max (factorCount 2 25000) (factorCount 5 25000) / 25000)
      else stripZeros (3 : ℤ).natAbs) = 12 from by decide]
  norm_num [Nat.digits_def']

theorem countSigRat_7 : countSigRat 7 = 1 := by
  refine countSigRat_eval 7 7 1 1 (by norm_num) rfl rfl ?_
  rw [show (if (1 : ℕ) ∣ 10 ^ max (factorCount 2 1) (factorCount 5 1)
      then stripZeros ((7 : ℤ).natAbs * 10 ^ max (factorCount 2 1) (factorCount 5 1) / 1)
      else stripZeros (7 : ℤ).natAbs) = 7 from by decide]
  norm_num [Nat.digits_def']

/-- Claim C4: `countSignificantDigits` returns 0 exactly on 0, `NaN` and
`±∞`; on a finite non-zero value it returns the (positive) number of
mantissa digits of the normalized scientific form, from the first
non-zero digit to the end (so 1000 ↦ 1, 1200 ↦ 2, 0.00012 ↦ 2). -/
theorem C4_countSignificantDigits_spec :
    (∀ v : JSNum, countSignificantDigits v = 0 ↔
      v = JSNum.num 0 ∨ v = JSNum.nan ∨ v = JSNum.inf ∨ v = JSNum.neginf) ∧
    (∀ q : ℚ, countSignificantDigits (JSNum.num q) =
      if q = 0 then 0 else (Nat.digits 10 (decMantissa q)).length) ∧
    countSignificantDigits (JSNum.num 1000) = 1 ∧
    countSignificantDigits (JSNum.num 1200) = 2 ∧
    countSignificantDigits (JSNum.num (12/100000)) = 2 := by
  refine ⟨?_, fun q => rfl, countSigRat_1000, countSigRat_1200, countSigRat_00012⟩
  intro v
  cases v with
  | num q =>
    simp only [countSignificantDigits]
    constructor
    · intro h
      rcases eq_or_ne q 0 with h0 | h0
      · subst h0; exact Or.inl rfl
      · exact absurd h (countSigRat_pos q h0).ne'
    · rintro (h | h | h | h)
      · rw [show q = 0 from by injection h]
        simp [countSigRat]
      · exact JSNum.noConfusion h
      · exact JSNum.noConfusion h
      · exact JSNum.noConfusion h
  | nan => simp [countSignificantDigits]
  | inf => simp [countSignificantDigits]
  | neginf => simp [countSignificantDigits]

theorem floorLog10_abs_1234 : floorLog10 |(1234 : ℚ)| = 3 := by
  rw [show |(1234 : ℚ)| = 1234 by norm_num]
  exact floorLog10_eval 1234 3 (by norm_num) (by norm_num) (by norm_num)

theorem roundToSigRat_1234_2 : roundToSigRat 1234 2 = 1200 := by
  have hz : mathRound ((1234 : ℚ) / 10 ^ ((3 : ℤ) - 2 + 1)) = 12 :=
    mathRound_eval _ 12 (by norm_num) (by norm_num)
  rw [roundToSigRat_eval 1234 2 3 12 (by norm_num) (by norm_num) floorLog10_abs_1234 hz]
  norm_num

theorem floorLog10_abs_0001234 : floorLog10 |(1234/1000000 : ℚ)| = -3 := by
  rw [show |(1234/1000000 : ℚ)| = 1234/1000000 by norm_num]
  exact floorLog10_eval (1234/1000000) (-3) (by norm_num) (by norm_num) (by norm_num)

theorem roundToSigRat_0001234_2 : roundToSigRat (1234/1000000) 2 = 12/10000 := by
  have hz : mathRound ((1234/1000000 : ℚ) / 10 ^ ((-3 : ℤ) - 2 + 1)) = 12 :=
    mathRound_eval _ 12 (by norm_num) (by norm_num)
  rw [roundToSigRat_eval (1234/1000000) 2 (-3) 12 (by norm_num) (by norm_num)
    floorLog10_abs_0001234 hz]
  norm_num

/-- Claim C3: `roundToSignificantDigits` returns the value unchanged on
non-finite input, zero, or non-positive digit count; otherwise it is
`round(value / scale) * scale` with
`scale = 10 ^ (floor(log10 |value|) - significantDigits + 1)`; in
particular 1234 at 2 digits gives 1200 and 0.001234 at 2 digits gives
0.0012. -/
theorem C3_roundToSignificantDigits_spec :
    (∀ (q : ℚ) (sd : ℤ), roundToSignificantDigits (JSNum.num q) sd =
      JSNum.num (if q = 0 ∨ sd ≤ 0 then q
        else (mathRound (q / 10 ^ (floorLog10 |q| - sd + 1)) : ℚ) *
          10 ^ (floorLog10 |q| - sd + 1))) ∧
    (∀ sd : ℤ, roundToSignificantDigits JSNum.nan sd = JSNum.nan ∧
      roundToSignificantDigits JSNum.inf sd = JSNum.inf ∧
      roundToSignificantDigits JSNum.neginf sd = JSNum.neginf) ∧
    roundToSignificantDigits (JSNum.num 1234) 2 = JSNum.num 1200 ∧
    roundToSignificantDigits (JSNum.num (1234/1000000)) 2 = JSNum.num (12/10000) := by
  refine ⟨fun q sd => rfl, fun sd => ⟨rfl, rfl, rfl⟩, ?_, ?_⟩
  · show JSNum.num (roundToSigRat 1234 2) = JSNum.num 1200
    rw [roundToSigRat_1234_2]
  · show JSNum.num (roundToSigRat (1234/1000000) 2) = JSNum.num (12/10000)
    rw [roundToSigRat_0001234_2]

theorem floorLog10_abs_scaled7 : floorLog10 |(10227/4 : ℚ)| = 3 := by
  rw [show |(10227/4 : ℚ)| = 10227/4 by norm_num]
  exact floorLog10_eval (10227/4) 3 (by norm_num) (by norm_num) (by norm_num)

theorem roundToSigRat_scaled7 : roundToSigRat (10227/4) 1 = 3000 := by
  have hz : mathRound ((10227/4 : ℚ) / 10 ^ ((3 : ℤ) - 1 + 1)) = 3 :=
    mathRound_eval _ 3 (by norm_num) (by norm_num)
  rw [roundToSigRat_eval (10227/4) 1 3 3 (by norm_num) (by norm_num) floorLog10_abs_scaled7 hz]
  norm_num

/-- Claim C5: `scaleNumber` returns the raw product when
`preserveSignificantDigits` is false, and otherwise rounds the product to
`countSignificantDigits value` clamped into
`[minSignificantDigits, maxSignificantDigits]` (defaults 1 and 15);
`scaleNumber 7 365.25` with default options is 3000. -/
theorem C5_scaleNumber_spec :
    (∀ (v r : JSNum) (options : ScaleOptions),
      scaleNumber v r options =
        if options.preserveSignificantDigits then
          roundToSignificantDigits (jsMul v r)
            (max options.minSignificantDigits
              (min options.maxSignificantDigits (countSignificantDigits v : ℤ)))
        else jsMul v r) ∧
    scaleNumber (JSNum.num 7) (JSNum.num (36525/100)) {} = JSNum.num 3000 := by
  constructor
  · intro v r options
    cases hb : options.preserveSignificantDigits <;>
      simp [scaleNumber, hb]
  · have h1 : jsMul (JSNum.num 7) (JSNum.num (36525/100)) = JSNum.num (10227/4) := by
      simp only [jsMul, JSNum.num.injEq]
      norm_num
    have hcount : countSignificantDigits (JSNum.num 7) = 1 := countSigRat_7
    calc scaleNumber (JSNum.num 7) (JSNum.num (36525/100)) {}
        = roundToSignificantDigits (JSNum.num (10227/4)) 1 := by
          simp only [scaleNumber, hcount, h1]
          norm_num
      _ = JSNum.num 3000 := by
          simp only [roundToSignificantDigits]
          rw [roundToSigRat_scaled7]

/-- Claim C6: `generateScale` raises the `InvalidRange` error exactly
when `start ≥ end`, before any other computation, and never errors for
`start < end`; `generateScale 100 100` and `generateScale 100 50` both
fail. -/
theorem C6_invalidRange_iff :
    (∀ (tenPow logTen : ℚ → ℚ) (fuel : ℕ) (start endv : ℚ)
        (options : GenerateScaleOptions),
      (∃ e, generateScale tenPow logTen fuel start endv options =
        some (Except.error e)) ↔ endv ≤ start) ∧
    generateScale (fun _ => 0) (fun _ => 0) 0 100 100 {} =
      some (Except.error "Start must be less than end") ∧
    generateScale (fun _ => 0) (fun _ => 0) 0 100 50 {} =
      some (Except.error "Start must be less than end") := by
  refine ⟨?_, ?_, ?_⟩
  · intro tp lt fuel start endv options
    constructor
    · rintro ⟨e, he⟩
      by_contra hlt
      obtain ⟨prog, rnd, sd, steps, istart, iend⟩ := options
      simp only [generateScale, if_neg hlt] at he
      cases prog
      · simp at he
      · simp at he
      · rcases hl : friendlyLoop endv iend fuel start with _ | pts <;>
          rw [hl] at he <;> simp at he
    · intro h
      exact ⟨"Start must be less than end", by simp only [generateScale, if_pos h]⟩
  · simp only [generateScale, if_pos (by norm_num : (100 : ℚ) ≤ 100)]
  · simp only [generateScale, if_pos (by norm_num : (50 : ℚ) ≤ 100)]

theorem friendlyLoop_zero_fuel (endv : ℚ) (ie : Bool) (current : ℚ) :
    friendlyLoop endv ie 0 current = if current < endv then none else some [] := rfl

theorem friendlyLoop_succ (endv : ℚ) (ie : Bool) (fuel : ℕ) (current : ℚ) :
    friendlyLoop endv ie (fuel + 1) current =
      if current < endv then
        (if friendlyStep current < endv then
          Option.map (fun l => friendlyStep current :: l)
            (friendlyLoop endv ie fuel (friendlyStep current))
        else some (if ie then [roundToFriendlyNumber endv] else []))
      else some [] := rfl

theorem floorLog10_zero : floorLog10 0 = 0 := by
  rw [floorLog10]
  norm_num

theorem friendlyStep_zero : friendlyStep 0 = 0 := by
  have h2 : nextMultiplier 0 = 2 := by
    simp only [nextMultiplier, floorLog10_zero]
    norm_num
  rw [friendlyStep, h2]
  norm_num [roundToFriendlyNumber]

theorem friendlyLoop_stuck_at_zero : ∀ n : ℕ, friendlyLoop 1 true n 0 = none := by
  intro n
  induction n with
  | zero =>
    rw [friendlyLoop_zero_fuel, if_pos (by norm_num)]
  | succ n ih =>
    rw [friendlyLoop_succ, if_pos (by norm_num), friendlyStep_zero,
      if_pos (by norm_num), ih]
    rfl

/-- Claim C2 counterexample: with `start = 0 < 1 = end` and the default
(friendly) configuration, no amount of fuel makes `generateScale` return:
the loop advances `0` to `roundToFriendlyNumber(0 * 2) = 0` forever. -/
theorem C2_counterexample : ¬ scaleTerminates (fun _ => 0) (fun _ => 0) 0 1 {} := by
  rintro ⟨fuel, r, h⟩
  simp only [generateScale, if_neg (by norm_num : ¬ (1 : ℚ) ≤ 0)] at h
  rw [friendlyLoop_stuck_at_zero fuel] at h
  simp at h

/-- Claim C2 (amended): `generateScale` terminates for every
`0 < start < end`, under every progression and rounding configuration
(the friendly loop at least doubles `current` each iteration, so
`O(log (end / start))` fuel suffices); for `start ≤ 0` the friendly loop
never terminates, as the counterexample shows. -/
theorem C2_amended_terminates :
    ∀ (tenPow logTen : ℚ → ℚ) (start endv : ℚ) (options : GenerateScaleOptions),
      0 < start → start < endv →
      scaleTerminates tenPow logTen start endv options := by
  intro tp lt start endv options h0 hlt
  obtain ⟨prog, rnd, sd, steps, istart, iend⟩ := options
  have hns : ¬ endv ≤ start := not_le.mpr hlt
  cases prog
  · exact ⟨0, _, by simp only [generateScale, if_neg hns]; rfl⟩
  · exact ⟨0, _, by simp only [generateScale, if_neg hns]; rfl⟩
  · obtain ⟨n, hn⟩ := pow_unbounded_of_one_lt (endv / start) (by norm_num : (1 : ℚ) < 2)
    have hfuel : endv ≤ 2 ^ n * start := by
      rw [div_lt_iff₀ h0] at hn
      linarith
    have hs := friendlyLoop_isSome endv iend n start h0 hfuel
    obtain ⟨pts, hpts⟩ := Option.isSome_iff_exists.mp hs
    exact ⟨n, _, by simp only [generateScale, if_neg hns, hpts, Option.map_some']; rfl⟩

theorem C2_witness : scaleTerminates (fun _ => 0) (fun _ => 0) 1 10 {} :=
  C2_amended_terminates (fun _ => 0) (fun _ => 0) 1 10 {} (by norm_num) (by norm_num)

theorem roundToFriendlyNumber_eval (q k a : ℚ) (m : ℤ) (hq : q = k * 10 ^ m)
    (h1 : 1 ≤ k) (h2 : k < 10)
    (ha : (if k ≤ 1 then (1 : ℚ) else if k ≤ 2 then 2 else if k ≤ 5/2 then 5/2
      else if k ≤ 5 then 5 else 10) * 10 ^ m = a) :
    roundToFriendlyNumber q = a := by
  rw [hq, roundToFriendlyNumber_anchor k m h1 h2, ha]

theorem nextMultiplier_eval (q k a : ℚ) (m : ℤ) (hq : q = k * 10 ^ m)
    (h1 : 1 ≤ k) (h2 : k < 10)
    (ha : (if k < 3/2 then (2 : ℚ) else if k < 9/4 then 5/2 else 2) = a) :
    nextMultiplier q = a := by
  rw [hq, nextMultiplier_anchor k m h1 h2, ha]

theorem rf_2_1 : roundToFriendlyNumber (21/10) = 5/2 :=
  roundToFriendlyNumber_eval (21/10) (21/10) (5/2) 0 (by norm_num) (by norm_num)
    (by norm_num) (by norm_num)

theorem nm_2_1 : nextMultiplier (21/10) = 5/2 :=
  nextMultiplier_eval (21/10) (21/10) (5/2) 0 (by norm_num) (by norm_num)
    (by norm_num) (by norm_num)

theorem fs_2_1 : friendlyStep (21/10) = 10 := by
  rw [friendlyStep, nm_2_1]
  exact roundToFriendlyNumber_eval ((21/10) * (5/2)) (21/4) 10 0 (by norm_num)
    (by norm_num) (by norm_num) (by norm_num)

theorem rf_double_2_1 : roundToFriendlyNumber ((21/10) * 2) = 5 :=
  roundToFriendlyNumber_eval ((21/10) * 2) (21/5) 5 0 (by norm_num) (by norm_num)
    (by norm_num) (by norm_num)

theorem nm_10 : nextMultiplier 10 = 2 :=
  nextMultiplier_eval 10 1 2 1 (by norm_num) (by norm_num) (by norm_num) (by norm_num)

theorem fs_10 : friendlyStep 10 = 20 := by
  rw [friendlyStep, nm_10]
  exact roundToFriendlyNumber_eval ((10 : ℚ) * 2) 2 20 1 (by norm_num) (by norm_num)
    (by norm_num) (by norm_num)

theorem nm_20 : nextMultiplier 20 = 5/2 :=
  nextMultiplier_eval 20 2 (5/2) 1 (by norm_num) (by norm_num) (by norm_num) (by norm_num)

theorem fs_20 : friendlyStep 20 = 50 := by
  rw [friendlyStep, nm_20]
  exact roundToFriendlyNumber_eval ((20 : ℚ) * (5/2)) 5 50 1 (by norm_num) (by norm_num)
    (by norm_num) (by norm_num)

theorem nm_50 : nextMultiplier 50 = 2 :=
  nextMultiplier_eval 50 5 2 1 (by norm_num) (by norm_num) (by norm_num) (by norm_num)

theorem fs_50 : friendlyStep 50 = 100 := by
  rw [friendlyStep, nm_50]
  exact roundToFriendlyNumber_eval ((50 : ℚ) * 2) 1 100 2 (by norm_num) (by norm_num)
    (by norm_num) (by norm_num)

theorem rf_100 : roundToFriendlyNumber 100 = 100 :=
  roundToFriendlyNumber_eval 100 1 100 2 (by norm_num) (by norm_num) (by norm_num)
    (by norm_num)

theorem friendlyLoop_run_2_1 :
    friendlyLoop 100 true 4 (21/10) = some [10, 20, 50, 100] := by
  rw [show (4 : ℕ) = 3 + 1 from rfl, friendlyLoop_succ, if_pos (by norm_num), fs_2_1,
    if_pos (by norm_num : (10 : ℚ) < 100)]
  rw [show (3 : ℕ) = 2 + 1 from rfl, friendlyLoop_succ, if_pos (by norm_num), fs_10,
    if_pos (by norm_num : (20 : ℚ) < 100)]
  rw [show (2 : ℕ) = 1 + 1 from rfl, friendlyLoop_succ, if_pos (by norm_num), fs_20,
    if_pos (by norm_num : (50 : ℚ) < 100)]
  rw [show (1 : ℕ) = 0 + 1 from rfl, friendlyLoop_succ, if_pos (by norm_num), fs_50,
    if_neg (by norm_num : ¬ (100 : ℚ) < 100), if_pos rfl, rf_100]
  rfl

/-- Claim C1 counterexample: at the loop state `current = 2.1` — the
state of the first iteration of `generateScale 2.1 100` with the default
configuration — the mantissa branching does select multiplier 2.5
(`2.1 < 2.25`), and the advance differs from
`roundToFriendlyNumber (current * 2)`: the step yields 10 while the
claimed fixed-×2 advance yields 5, so the emitted scale is
`[2.5, 10, 20, 50, 100]` rather than containing 5. -/
theorem C1_counterexample :
    nextMultiplier (21/10) = 5/2 ∧
    friendlyStep (21/10) = 10 ∧
    roundToFriendlyNumber ((21/10) * 2) = 5 ∧
    friendlyStep (21/10) ≠ roundToFriendlyNumber ((21/10) * 2) ∧
    generateScale (fun _ => 0) (fun _ => 0) 4 (21/10) 100 {} =
      some (Except.ok [5/2, 10, 20, 50, 100]) := by
  refine ⟨nm_2_1, fs_2_1, rf_double_2_1, ?_, ?_⟩
  · rw [fs_2_1, rf_double_2_1]
    norm_num
  · simp only [generateScale, if_neg (by norm_num : ¬ (100 : ℚ) ≤ 21/10),
      friendlyLoop_run_2_1, Option.map_some', rf_2_1]
    norm_num [sortDedup, List.dedup_cons_of_not_mem, List.insertionSort,
      List.orderedInsert]

theorem rf_2 : roundToFriendlyNumber 2 = 2 :=
  roundToFriendlyNumber_eval 2 2 2 0 (by norm_num) (by norm_num) (by norm_num)
    (by norm_num)

/-- Claim C1 (amended): for every *friendly-anchored* current value
(`roundToFriendlyNumber current = current`, which covers every value the
loop reaches after its first iteration, the loop state being re-snapped
each time), the advance does equal `roundToFriendlyNumber (current * 2)`
— even where the branching selects 2.5 the re-snap coincides.  The
branching genuinely selects 2.5 for mantissas in `[1.5, 2.25)`, and for
an unrounded `start` with mantissa in `(2, 2.25)` the first advance
differs from the fixed-×2 description (see the counterexample). -/
theorem C1_amended_anchor_step :
    ∀ c : ℚ, 0 < c → roundToFriendlyNumber c = c →
      friendlyStep c = roundToFriendlyNumber (c * 2) := by
  intro c hc hfix
  obtain ⟨h1, h2⟩ := floorLog10_spec c hc
  set m := floorLog10 c with hm
  have hp : (0 : ℚ) < 10 ^ m := zpow10_pos m
  have hk1 : 1 ≤ c / 10 ^ m := (one_le_div hp).mpr h1
  have hk2 : c / 10 ^ m < 10 := by
    rw [div_lt_iff₀ hp]
    calc c < 10 ^ (m + 1) := h2
      _ = 10 * 10 ^ m := by rw [zpow_add_one₀ (by norm_num : (10 : ℚ) ≠ 0)]; ring
  have hqe : c = c / 10 ^ m * 10 ^ m := by field_simp
  have hfix' : (if c / 10 ^ m ≤ 1 then (1 : ℚ) else if c / 10 ^ m ≤ 2 then 2
      else if c / 10 ^ m ≤ 5/2 then 5/2 else if c / 10 ^ m ≤ 5 then 5 else 10) *
        10 ^ m = c := by
    rw [← roundToFriendlyNumber_anchor (c / 10 ^ m) m hk1 hk2, ← hqe]
    exact hfix
  by_cases ha : c / 10 ^ m ≤ 1
  · rw [if_pos ha] at hfix'
    have hnm : nextMultiplier c = 2 :=
      nextMultiplier_eval c 1 2 m hfix'.symm (by norm_num) (by norm_num) (by norm_num)
    rw [friendlyStep, hnm]
  · by_cases hb : c / 10 ^ m ≤ 2
    · rw [if_neg ha, if_pos hb] at hfix'
      have hnm : nextMultiplier c = 5/2 :=
        nextMultiplier_eval c 2 (5/2) m hfix'.symm (by norm_num) (by norm_num)
          (by norm_num)
      rw [friendlyStep, hnm]
      rw [roundToFriendlyNumber_eval (c * (5/2)) 5 (5 * 10 ^ m) m
        (by rw [← hfix']; ring) (by norm_num) (by norm_num) (by norm_num)]
      rw [roundToFriendlyNumber_eval (c * 2) 4 (5 * 10 ^ m) m
        (by rw [← hfix']; ring) (by norm_num) (by norm_num) (by norm_num)]
    · by_cases hcq : c / 10 ^ m ≤ 5/2
      · rw [if_neg ha, if_neg hb, if_pos hcq] at hfix'
        have hnm : nextMultiplier c = 2 :=
          nextMultiplier_eval c (5/2) 2 m hfix'.symm (by norm_num) (by norm_num)
            (by norm_num)
        rw [friendlyStep, hnm]
      · by_cases hd : c / 10 ^ m ≤ 5
        · rw [if_neg ha, if_neg hb, if_neg hcq, if_pos hd] at hfix'
          have hnm : nextMultiplier c = 2 :=
            nextMultiplier_eval c 5 2 m hfix'.symm (by norm_num) (by norm_num)
              (by norm_num)
          rw [friendlyStep, hnm]
        · exfalso
          rw [if_neg ha, if_neg hb, if_neg hcq, if_neg hd] at hfix'
          rw [← hfix'] at h2
          rw [zpow_add_one₀ (by norm_num : (10 : ℚ) ≠ 0)] at h2
          linarith

theorem C1_witness : friendlyStep 2 = roundToFriendlyNumber (2 * 2) :=
  C1_amended_anchor_step 2 (by norm_num) rf_2

theorem mathRound_neg (x : ℚ) (h : Int.fract x ≠ 1/2) :
    mathRound (-x) = -mathRound x := by
  rw [mathRound, mathRound, show -x + 1/2 = -(x - 1/2) by ring, Int.floor_neg]
  congr 1
  have hnotint : ∀ z : ℤ, x - 1/2 ≠ (z : ℚ) := by
    intro z hz
    apply h
    have hx : x = (z : ℚ) + 1/2 := by linarith
    rw [hx, Int.fract]
    rw [Int.floor_int_add, show ⌊(1/2 : ℚ)⌋ = 0 by norm_num]
    push_cast
    ring
  have hfy : (⌊x - 1/2⌋ : ℚ) < x - 1/2 := by
    rcases lt_or_eq_of_le (Int.floor_le (x - 1/2)) with hlt | heq
    · exact hlt
    · exact absurd heq.symm (hnotint ⌊x - 1/2⌋)
  have hceil : ⌈x - 1/2⌉ = ⌊x - 1/2⌋ + 1 := by
    have hub := Int.ceil_le_floor_add_one (x - 1/2)
    have hlb : ⌊x - 1/2⌋ < ⌈x - 1/2⌉ := by
      rw [Int.lt_ceil]
      exact hfy
    omega
  rw [hceil, show x + 1/2 = (x - 1/2) + 1 by ring, Int.floor_add_one]

/-- The "no exact half-way tie" side condition of the amended claim C8:
trivially true for non-finite input and in the guard cases, otherwise
the scaled value must not sit exactly half way between integers. -/
def rtsTieFree (v : JSNum) (sd : ℤ) : Prop :=
  match v with
  | JSNum.num q => q = 0 ∨ sd ≤ 0 ∨
      Int.fract (q / 10 ^ (floorLog10 |q| - sd + 1)) ≠ 1/2
  | _ => True

/-- Claim C8 counterexample: at the exact half-way tie 15 with one
significant digit, the half-toward-+∞ tie-breaking of `Math.round` is not
symmetric: `roundToSignificantDigits (-15) 1 = -10` while
`-roundToSignificantDigits 15 1 = -20`. -/
theorem C8_counterexample :
    roundToSignificantDigits (JSNum.num (-15)) 1 = JSNum.num (-10) ∧
    roundToSignificantDigits (JSNum.num 15) 1 = JSNum.num 20 ∧
    roundToSignificantDigits (JSNum.num (-15)) 1 ≠
      jneg (roundToSignificantDigits (JSNum.num 15) 1) := by
  have hm15 : floorLog10 |(-15 : ℚ)| = 1 := by
    rw [show |(-15 : ℚ)| = 15 by norm_num]
    exact floorLog10_eval 15 1 (by norm_num) (by norm_num) (by norm_num)
  have hm15' : floorLog10 |(15 : ℚ)| = 1 := by
    rw [show |(15 : ℚ)| = 15 by norm_num]
    exact floorLog10_eval 15 1 (by norm_num) (by norm_num) (by norm_num)
  have hneg : roundToSigRat (-15) 1 = -10 := by
    have hz : mathRound ((-15 : ℚ) / 10 ^ ((1 : ℤ) - 1 + 1)) = -1 :=
      mathRound_eval _ (-1) (by norm_num) (by norm_num)
    rw [roundToSigRat_eval (-15) 1 1 (-1) (by norm_num) (by norm_num) hm15 hz]
    norm_num
  have hpos : roundToSigRat 15 1 = 20 := by
    have hz : mathRound ((15 : ℚ) / 10 ^ ((1 : ℤ) - 1 + 1)) = 2 :=
      mathRound_eval _ 2 (by norm_num) (by norm_num)
    rw [roundToSigRat_eval 15 1 1 2 (by norm_num) (by norm_num) hm15' hz]
    norm_num
  refine ⟨?_, ?_, ?_⟩
  · show JSNum.num (roundToSigRat (-15) 1) = JSNum.num (-10)
    rw [hneg]
  · show JSNum.num (roundToSigRat 15 1) = JSNum.num 20
    rw [hpos]
  · show JSNum.num (roundToSigRat (-15) 1) ≠ jneg (JSNum.num (roundToSigRat 15 1))
    rw [hneg, hpos]
    simp only [jneg, ne_eq, JSNum.num.injEq]
    norm_num

/-- Claim C8 (amended): `roundToSignificantDigits` is symmetric in sign
(`roundToSignificantDigits (-v) n = -roundToSignificantDigits v n`)
whenever the scaled value is not an exact half-way tie; at exact ties
`Math.round` rounds half toward `+∞`, breaking the symmetry (see the
counterexample). -/
theorem C8_amended_neg_symm :
    ∀ (v : JSNum) (sd : ℤ), rtsTieFree v sd →
      roundToSignificantDigits (jneg v) sd = jneg (roundToSignificantDigits v sd) := by
  intro v sd h
  cases v with
  | nan => rfl
  | inf => rfl
  | neginf => rfl
  | num q =>
    simp only [jneg, roundToSignificantDigits, JSNum.num.injEq]
    rcases eq_or_ne q 0 with h0 | h0
    · subst h0
      norm_num [roundToSigRat]
    rcases le_or_lt sd 0 with hsd | hsd
    · rw [roundToSigRat, if_pos (Or.inr hsd), roundToSigRat, if_pos (Or.inr hsd)]
    · have htie : Int.fract (q / 10 ^ (floorLog10 |q| - sd + 1)) ≠ 1/2 := by
        rcases h with h' | h' | h'
        · exact absurd h' h0
        · omega
        · exact h'
      have hcn : ¬ (-q = 0 ∨ sd ≤ 0) := by push_neg; exact ⟨neg_ne_zero.mpr h0, by omega⟩
      have hcp : ¬ (q = 0 ∨ sd ≤ 0) := by push_neg; exact ⟨h0, by omega⟩
      simp only [roundToSigRat, if_neg hcn, if_neg hcp, abs_neg]
      rw [show -q / 10 ^ (floorLog10 |q| - sd + 1) =
        -(q / 10 ^ (floorLog10 |q| - sd + 1)) by ring]
      rw [mathRound_neg _ htie]
      push_cast
      ring

theorem C8_witness :
    roundToSignificantDigits (jneg (JSNum.num 1)) 1 =
      jneg (roundToSignificantDigits (JSNum.num 1) 1) := by
  apply C8_amended_neg_symm (JSNum.num 1) 1
  show (1 : ℚ) = 0 ∨ (1 : ℤ) ≤ 0 ∨ _
  right; right
  rw [show |(1 : ℚ)| = 1 by norm_num,
    floorLog10_eval 1 0 (by norm_num) (by norm_num) (by norm_num)]
  norm_num [Int.fract]

/-- Claim C9 counterexample: with `ratio = 0` the round trip is not the
identity: `scaleNumber 1 0 = 0`, the inverse ratio `1/0` is `Infinity`,
and `0 * Infinity = NaN ≠ 1`. -/
theorem C9_counterexample :
    scaleNumberInverse
        (scaleNumber (JSNum.num 1) (JSNum.num 0) { preserveSignificantDigits := false })
        (JSNum.num 0) { preserveSignificantDigits := false } = JSNum.nan ∧
    JSNum.nan ≠ JSNum.num 1 := by
  constructor
  · have h1 : scaleNumber (JSNum.num 1) (JSNum.num 0)
        { preserveSignificantDigits := false } = JSNum.num 0 := by
      simp only [scaleNumber, jsMul]
      norm_num
    rw [scaleNumberInverse, h1]
    have h2 : jsDiv (JSNum.num 1) (JSNum.num 0) = JSNum.inf := by
      simp only [jsDiv]
      norm_num
    rw [h2]
    simp only [scaleNumber, jsMul]
    norm_num
  · simp


/-- Claim C9 (amended): the round trip is not exact in general.  Ratio 0
degenerates to `NaN` (see the counterexample), and for a generic ratio
the double-precision program is perturbed by IEEE 754 rounding, which
this exact-rational model deliberately drops: at `r = 49` the program
returns `49 * fl(1/49) = 1 - 2^-53 ≠ 1`.  Exactness does hold — in the
program as well as in this model — for every value and every
power-of-two ratio `r = 2^k`: multiplying or dividing by a power of two
only shifts the binary exponent, so those operations are exact in
binary64 and the exact-rational semantics of `jsMul` / `jsDiv` coincides
with the IEEE semantics on this class (the repository test exercises the
power-of-two ratio 16). -/
theorem C9_amended_pow2_roundtrip :
    ∀ (v : JSNum) (k : ℤ),
      scaleNumberInverse
        (scaleNumber v (JSNum.num (2 ^ k)) { preserveSignificantDigits := false })
        (JSNum.num (2 ^ k)) { preserveSignificantDigits := false } = v := by
  intro v k
  have hb0 : (0 : ℚ) < 2 ^ k := zpow_pos (by norm_num) k
  have hb : (2 : ℚ) ^ k ≠ 0 := ne_of_gt hb0
  have hdiv : jsDiv (JSNum.num 1) (JSNum.num (2 ^ k)) = JSNum.num (1 / 2 ^ k) := by
    simp only [jsDiv, if_neg hb]
  cases v with
  | num a =>
    have h1 : scaleNumber (JSNum.num a) (JSNum.num (2 ^ k))
        { preserveSignificantDigits := false } = JSNum.num (a * 2 ^ k) := by
      simp [scaleNumber, jsMul]
    rw [scaleNumberInverse, h1, hdiv]
    simp [scaleNumber, jsMul]
    field_simp
  | nan =>
    have h1 : scaleNumber JSNum.nan (JSNum.num (2 ^ k))
        { preserveSignificantDigits := false } = JSNum.nan := by
      simp [scaleNumber, jsMul]
    rw [scaleNumberInverse, h1, hdiv]
    simp [scaleNumber, jsMul]
  | inf =>
    have h1 : scaleNumber JSNum.inf (JSNum.num (2 ^ k))
        { preserveSignificantDigits := false } = JSNum.inf := by
      simp [scaleNumber, jsMul, hb0]
    rw [scaleNumberInverse, h1, hdiv]
    simp [scaleNumber, jsMul, hb0]
  | neginf =>
    have h1 : scaleNumber JSNum.neginf (JSNum.num (2 ^ k))
        { preserveSignificantDigits := false } = JSNum.neginf := by
      simp [scaleNumber, jsMul, hb0]
    rw [scaleNumberInverse, h1, hdiv]
    simp [scaleNumber, jsMul, hb0]

theorem rf_10 : roundToFriendlyNumber 10 = 10 :=
  roundToFriendlyNumber_eval 10 1 10 1 (by norm_num) (by norm_num) (by norm_num)
    (by norm_num)

theorem rf_20 : roundToFriendlyNumber 20 = 20 :=
  roundToFriendlyNumber_eval 20 2 20 1 (by norm_num) (by norm_num) (by norm_num)
    (by norm_num)

theorem rf_30 : roundToFriendlyNumber 30 = 50 :=
  roundToFriendlyNumber_eval 30 3 50 1 (by norm_num) (by norm_num) (by norm_num)
    (by norm_num)

theorem rf_40 : roundToFriendlyNumber 40 = 50 :=
  roundToFriendlyNumber_eval 40 4 50 1 (by norm_num) (by norm_num) (by norm_num)
    (by norm_num)

theorem rf_50 : roundToFriendlyNumber 50 = 50 :=
  roundToFriendlyNumber_eval 50 5 50 1 (by norm_num) (by norm_num) (by norm_num)
    (by norm_num)

theorem rf_1 : roundToFriendlyNumber 1 = 1 :=
  roundToFriendlyNumber_eval 1 1 1 0 (by norm_num) (by norm_num) (by norm_num)
    (by norm_num)

theorem rf_1000 : roundToFriendlyNumber 1000 = 1000 :=
  roundToFriendlyNumber_eval 1000 1 1000 3 (by norm_num) (by norm_num) (by norm_num)
    (by norm_num)

theorem baselineFriendlyAux_length (rounding : ScaleRounding) (sd : ℤ) :
    ∀ (k : ℕ) (c : ℚ) (idx : ℕ),
      (baselineFriendlyAux rounding sd k c idx).length = k := by
  intro k
  induction k with
  | zero => intro c idx; rfl
  | succ k ih =>
    intro c idx
    simp only [baselineFriendlyAux, List.length_cons, ih]

/-- Claim C10 counterexample: `generateScaleFromBaseline` returns one
value (not zero) for `count = 0`, and with linear progression and the
default friendly rounding the linear example produces
`[10, 20, 50, 50, 50]`, not `[10, 20, 30, 40, 50]` (each point is
friendly-rounded; the claimed output needs `rounding: none`). -/
theorem C10_counterexample :
    (generateScaleFromBaseline 10 0 {}).length = 1 ∧
    generateScaleFromBaseline 10 5 { progression := ScaleProgression.linear } =
      [10, 20, 50, 50, 50] ∧
    ([10, 20, 50, 50, 50] : List ℚ) ≠ [10, 20, 30, 40, 50] := by
  refine ⟨?_, ?_, ?_⟩
  · simp [generateScaleFromBaseline, baselineFriendlyAux]
  · norm_num [generateScaleFromBaseline, applyRounding, List.range_succ,
      rf_10, rf_20, rf_30, rf_40, rf_50]
  · norm_num

/-- Claim C10 (amended): `generateScaleFromBaseline` returns exactly
`max count 1` values (one value, not zero, when `count = 0`); with
linear progression and `rounding: none` the i-th value is
`baseline * (i+1)`, with exponential progression and `rounding: none`
it is `baseline * 10^i`; the linear example `[10,20,30,40,50]` holds
under `rounding: none`, and the exponential example `[1,10,100,1000]`
holds even under the default friendly rounding, powers of ten being
friendly fixed points. -/
theorem C10_generateScaleFromBaseline_spec :
    (∀ (b : ℚ) (count : ℕ) (options : GenerateScaleOptions),
      (generateScaleFromBaseline b count options).length = max count 1) ∧
    (∀ (b : ℚ) (count : ℕ),
      generateScaleFromBaseline b count
        { progression := ScaleProgression.linear, rounding := ScaleRounding.none } =
      (List.range (max count 1)).map (fun (i : ℕ) => b * ((i : ℚ) + 1))) ∧
    (∀ (b : ℚ) (count : ℕ),
      generateScaleFromBaseline b count
        { progression := ScaleProgression.exponential, rounding := ScaleRounding.none } =
      (List.range (max count 1)).map (fun i => b * 10 ^ i)) ∧
    generateScaleFromBaseline 10 5
      { progression := ScaleProgression.linear, rounding := ScaleRounding.none } =
      [10, 20, 30, 40, 50] ∧
    generateScaleFromBaseline 1 4 { progression := ScaleProgression.exponential } =
      [1, 10, 100, 1000] := by
  refine ⟨?_, ?_, ?_, ?_, ?_⟩
  · intro b count options
    obtain ⟨prog, rnd, sd, steps, istart, iend⟩ := options
    cases prog
    · simp [generateScaleFromBaseline]
      omega
    · simp [generateScaleFromBaseline]
      omega
    · simp [generateScaleFromBaseline, baselineFriendlyAux_length]
      omega
  · intro b count
    cases count with
    | zero =>
      rw [show max 0 1 = 1 from rfl, show List.range 1 = [0] from rfl]
      norm_num [generateScaleFromBaseline, applyRounding]
    | succ k =>
      simp only [generateScaleFromBaseline, applyRounding, Nat.succ_sub_one]
      rw [show max (k + 1) 1 = k + 1 from by omega, List.range_succ_eq_map]
      simp only [List.map_cons, List.map_map, List.cons.injEq]
      refine ⟨by norm_num, ?_⟩
      apply List.map_congr_left
      intro j hj
      simp only [Function.comp_apply]
      push_cast
      ring
  · intro b count
    cases count with
    | zero =>
      rw [show max 0 1 = 1 from rfl, show List.range 1 = [0] from rfl]
      norm_num [generateScaleFromBaseline, applyRounding]
    | succ k =>
      simp only [generateScaleFromBaseline, applyRounding, Nat.succ_sub_one]
      rw [show max (k + 1) 1 = k + 1 from by omega, List.range_succ_eq_map]
      simp only [List.map_cons, List.map_map, List.cons.injEq]
      refine ⟨by norm_num, ?_⟩
      apply List.map_congr_left
      intro j hj
      simp only [Function.comp_apply]
  · norm_num [generateScaleFromBaseline, applyRounding, List.range_succ]
  · norm_num [generateScaleFromBaseline, applyRounding, List.range_succ,
      rf_1, rf_10, rf_100, rf_1000]
